import Mathlib

/-
Verification of the selection-state logic of the useKbdList hook
(src/index.tsx): keyboard navigation with wraparound, pointer tracking
with hover sentinels, element resolution and the scroll-into-view effect.

The hook's React state is embedded as an explicit record; each handler
and each reactive effect of the source becomes a pure function on that
record. DOM collaborators are abstracted: the element located by
document.querySelector for a given index is an injected function
`Int → Option Elem`, and the attribute string found by
e.target.closest is an `Option String` input to handleMove.
-/

namespace UseKbdList

/-- A located list-item element, reduced to the two layout fields the
scroll effect reads: offsetTop and offsetHeight (integer pixel values). -/
structure Elem where
  offsetTop : Int
  offsetHeight : Int
deriving DecidableEq

/-- The scrollable container attached via the returned ref; the scroll
effect reads only its offsetHeight. -/
structure Container where
  offsetHeight : Int
deriving DecidableEq

/-- The key field of a delivered keyboard event. The six named
constructors are the members of the Keys enum in src/index.tsx; `other`
is any other e.key string, for which the switch leaves nextIndex at -1. -/
inductive Key where
  | ArrowUp
  | ArrowDown
  | PageUp
  | PageDown
  | Home
  | End
  | other (key : String)
deriving DecidableEq

/-- Whether the key is one of the six members of the Keys enum that the
hook registers with the key-binding service. -/
def Key.isRecognized : Key → Bool
  | .other _ => false
  | _ => true

/-- The JavaScript % operator on integers: truncated remainder, taking
the sign of the dividend (Int.tmod has exactly this behavior). -/
def jsMod (a b : Int) : Int := Int.tmod a b

/-- Value of a nonempty decimal digit string (code point of the digit 0
is 48). -/
def digitsVal (cs : List Char) : Nat :=
  cs.foldl (fun acc c => 10 * acc + (c.toNat - 48)) 0

/-- Parse a nonempty all-digit character list. -/
def parseDigits (cs : List Char) : Option Nat :=
  if cs ≠ [] ∧ cs.all Char.isDigit then some (digitsVal cs) else none

/-- Models the ECMAScript Number() coercion applied by handleMove to the
attribute string, on the fragment of strings whose coercion is an
integer or NaN: the empty string coerces to 0, an optional sign followed
by decimal digits gives the signed value, and other strings in the
model are NaN (none), as isNaN(Number(s)) then holds. Fractional,
exponent, hexadecimal and Infinity literals lie outside the model. -/
def jsNumberInt (s : String) : Option Int :=
  match s.toList with
  | [] => some 0
  | c :: cs =>
      if c = Char.ofNat 45 then (parseDigits cs).map (fun n => -(n : Int))
      else if c = Char.ofNat 43 then (parseDigits cs).map (fun n => (n : Int))
      else (parseDigits (c :: cs)).map (fun n => (n : Int))

/-- The hook's React state: useState(-1) for hoverIndex, useState(0) for
activeIndex, useState(null) for activeElement. -/
structure State where
  hoverIndex : Int
  activeIndex : Int
  activeElement : Option Elem
deriving DecidableEq

/-- Initial state at mount: hoverIndex -1, activeIndex 0, no element. -/
def initialState : State := ⟨-1, 0, none⟩

/-- handleKeypress from src/index.tsx: early return when listLength is 0;
otherwise the switch on e.key computes nextIndex (initialized to -1),
using the hoverIndex branch of each ternary when isHovering
(hoverIndex >= 0); if nextIndex is still -1 the state is untouched, else
activeIndex becomes nextIndex and hoverIndex is reset to -1. -/
def handleKeypress (listLength : Nat) (key : Key) (s : State) : State :=
  if listLength = 0 then s
  else
    let nextIndex : Int :=
      match key with
      | .ArrowUp =>
          if s.hoverIndex ≥ 0 then jsMod (s.hoverIndex - 1 + listLength) listLength
          else jsMod (s.activeIndex - 1 + listLength) listLength
      | .ArrowDown =>
          if s.hoverIndex ≥ 0 then jsMod (s.hoverIndex + 1) listLength
          else jsMod (s.activeIndex + 1) listLength
      | .PageUp | .Home => 0
      | .PageDown | .End => (listLength : Int) - 1
      | .other _ => -1
    if nextIndex = -1 then s
    else { s with activeIndex := nextIndex, hoverIndex := -1 }

/-- handleMove from src/index.tsx. The DOM hit-test
e.target.closest of the index-attribute selector is abstracted as the
optional attribute string it yields: none when no ancestor-or-self of
the target carries the attribute (early return). The value is coerced
with Number(); on NaN, or when it equals the current hoverIndex, the
handler returns without changes; otherwise both hoverIndex and
activeIndex are set to it. -/
def handleMove (attr : Option String) (s : State) : State :=
  match attr with
  | none => s
  | some v =>
    match jsNumberInt v with
    | none => s
    | some listItemIndex =>
        if s.hoverIndex = listItemIndex then s
        else { s with hoverIndex := listItemIndex, activeIndex := listItemIndex }

/-- handleLeave from src/index.tsx: setHoverIndex(-2). -/
def handleLeave (s : State) : State := { s with hoverIndex := -2 }

/-- The element-resolution effect of src/index.tsx: look up the element
for activeIndex (getSelectedElement, abstracted as the injected
locator); keep the previous activeElement when nothing is found, set it
when an element is found. -/
def resolveEffect (locator : Int → Option Elem) (s : State) : State :=
  match locator s.activeIndex with
  | none => s
  | some elem => { s with activeElement := some elem }

/-- Scroll behavior passed to container.scroll; the source always
requests "smooth". -/
inductive ScrollBehavior where
  | auto
  | smooth
deriving DecidableEq

/-- The argument of container.scroll. -/
structure ScrollRequest where
  top : Int
  behavior : ScrollBehavior
deriving DecidableEq

/-- The body of the scroll effect of src/index.tsx: returns the request
passed to container.scroll, or none when the guard returns early
(no container, activeIndex < 0, activeIndex equal to hoverIndex, no
activeElement, or hoverIndex -2, the mouse-left-container sentinel). The
requested top is offsetTop - containerHeight + offsetHeight with smooth
behavior. -/
def scrollEffect (container : Option Container) (s : State) : Option ScrollRequest :=
  match container, s.activeElement with
  | some c, some activeElement =>
      if s.activeIndex < 0 ∨ s.activeIndex = s.hoverIndex ∨ s.hoverIndex = -2 then
        none
      else
        some { top := activeElement.offsetTop - c.offsetHeight + activeElement.offsetHeight,
               behavior := ScrollBehavior.smooth }
  | _, _ => none

/-- The whole hook instance: the externally supplied list length, the
container ref (none while unattached) and the React state. -/
structure Sys where
  listLength : Nat
  container : Option Container
  state : State
deriving DecidableEq

/-- An externally delivered event: a key event dispatched by the
key-binding service, a pointer move (carrying the attribute string
resolved from the event target, none when absent), a pointer leave, or a
change of the listLength argument across renders. -/
inductive Op where
  | keypress (key : Key)
  | move (attr : Option String)
  | leave
  | setLength (n : Nat)
deriving DecidableEq

/-- The dependency array of the scroll effect:
[activeIndex, hoverIndex, activeElement]. -/
def scrollDeps (s : State) : Int × Int × Option Elem :=
  (s.activeIndex, s.hoverIndex, s.activeElement)

/-- Re-run the element-resolution effect exactly when its dependencies
activeIndex and listLength changed across the commit (the third
dependency, getSelectedElement, only changes with the attribute name,
which is fixed). For a fixed locator the effect is idempotent, so
running it once per such commit captures the settled value. -/
def runResolve (locator : Int → Option Elem) (old new : Sys) : Sys :=
  if new.state.activeIndex = old.state.activeIndex ∧ new.listLength = old.listLength then new
  else { new with state := resolveEffect locator new.state }

/-- One delivered event followed by the reactive effects it re-triggers.
A listLength change first runs the reset effect
useEffect(setActiveIndex(0), [listLength]); the transient element lookup
at the stale index between the reset commit and the re-resolution is not
observable in the settled state and is not modelled. -/
def applyOp (locator : Int → Option Elem) (op : Op) (w : Sys) : Sys :=
  let w' : Sys :=
    match op with
    | .keypress key => { w with state := handleKeypress w.listLength key w.state }
    | .move attr => { w with state := handleMove attr w.state }
    | .leave => { w with state := handleLeave w.state }
    | .setLength n =>
        if n = w.listLength then w
        else { w with listLength := n, state := { w.state with activeIndex := 0 } }
  runResolve locator w w'

/-- Like applyOp, also reporting the scroll request the scroll effect
issues for this event: the effect re-runs when its dependency array
changed across the commit, and then scrolls or not per its guard. -/
def applyOpScroll (locator : Int → Option Elem) (op : Op) (w : Sys) :
    Sys × Option ScrollRequest :=
  let w' := applyOp locator op w
  (w', if scrollDeps w'.state = scrollDeps w.state then none
       else scrollEffect w'.container w'.state)

/-- Spec-side base index of a keyboard transition: hoverIndex when
hoverIndex is nonnegative (pointer-authoritative), activeIndex
otherwise. -/
def baseIndex (s : State) : Int :=
  if s.hoverIndex ≥ 0 then s.hoverIndex else s.activeIndex

/-- Spec-side transition table: the index a recognized key computes from
the base index for a list of length n, with -1 as the no-transition
sentinel for unrecognized keys. -/
def computedNext (n : Nat) (key : Key) (s : State) : Int :=
  match key with
  | .ArrowUp => jsMod (baseIndex s - 1 + n) n
  | .ArrowDown => jsMod (baseIndex s + 1) n
  | .PageUp | .Home => 0
  | .PageDown | .End => (n : Int) - 1
  | .other _ => -1

/-- A concrete element used in concrete runs. -/
def elem0 : Elem := ⟨40, 20⟩

/-- A locator for a fully rendered list: every index resolves. -/
def loc1 : Int → Option Elem := fun _ => some elem0

/-- A locator for a list none of whose rows is rendered. -/
def locNone : Int → Option Elem := fun _ => none

/-- A concrete container of height 100. -/
def cont0 : Container := ⟨100⟩

/-- A mounted hook instance over a list of length 5 with the container
attached and the initial state. -/
def w0 : Sys := ⟨5, some cont0, initialState⟩

/-- The instance after the pointer moved onto row 4 of w0 and then left
the container: activeIndex 4, hoverIndex -2, element resolved. -/
def wLeft : Sys := ⟨5, some cont0, ⟨-2, 4, some elem0⟩⟩

/- Helper lemmas (not claim theorems). -/

theorem jsMod_eq_emod (a b : Int) (ha : 0 ≤ a) (hb : 0 ≤ b) : jsMod a b = a % b :=
  Int.tmod_eq_emod ha hb

theorem jsMod_bounds (a b : Int) (ha : 0 ≤ a) (hb : 0 < b) :
    0 ≤ jsMod a b ∧ jsMod a b < b := by
  rw [jsMod_eq_emod a b ha (le_of_lt hb)]
  exact ⟨Int.emod_nonneg a (ne_of_gt hb), Int.emod_lt_of_pos a hb⟩

theorem resolveEffect_hoverIndex (locator : Int → Option Elem) (s : State) :
    (resolveEffect locator s).hoverIndex = s.hoverIndex := by
  unfold resolveEffect
  cases locator s.activeIndex <;> rfl

theorem resolveEffect_activeIndex (locator : Int → Option Elem) (s : State) :
    (resolveEffect locator s).activeIndex = s.activeIndex := by
  unfold resolveEffect
  cases locator s.activeIndex <;> rfl

theorem runResolve_hoverIndex (locator : Int → Option Elem) (old w : Sys) :
    (runResolve locator old w).state.hoverIndex = w.state.hoverIndex := by
  unfold runResolve
  split
  · rfl
  · exact resolveEffect_hoverIndex locator w.state

theorem runResolve_activeIndex (locator : Int → Option Elem) (old w : Sys) :
    (runResolve locator old w).state.activeIndex = w.state.activeIndex := by
  unfold runResolve
  split
  · rfl
  · exact resolveEffect_activeIndex locator w.state

theorem runResolve_listLength (locator : Int → Option Elem) (old w : Sys) :
    (runResolve locator old w).listLength = w.listLength := by
  unfold runResolve
  split <;> rfl

theorem scrollEffect_hover_left (container : Option Container) (s : State)
    (h : s.hoverIndex = -2) : scrollEffect container s = none := by
  unfold scrollEffect
  cases container <;> cases s.activeElement <;> simp [h]

theorem handleKeypress_eq_computed (n : Nat) (key : Key) (s : State) (hn : 0 < n)
    (hv : computedNext n key s ≠ -1) :
    handleKeypress n key s = { s with activeIndex := computedNext n key s, hoverIndex := -1 } := by
  unfold computedNext baseIndex at hv ⊢
  unfold handleKeypress
  rw [if_neg (Nat.pos_iff_ne_zero.mp hn)]
  cases key <;> by_cases hh : s.hoverIndex ≥ 0 <;>
    simp only [hh, if_true, if_false, ite_true, ite_false] at hv ⊢ <;>
    first
      | exact absurd rfl hv
      | rw [if_neg hv]

theorem handleKeypress_noTransition (n : Nat) (key : Key) (s : State)
    (hv : computedNext n key s = -1) : handleKeypress n key s = s := by
  unfold computedNext baseIndex at hv
  unfold handleKeypress
  by_cases hn : n = 0
  · rw [if_pos hn]
  · rw [if_neg hn]
    cases key <;> by_cases hh : s.hoverIndex ≥ 0 <;>
      simp only [hh, if_true, if_false, ite_true, ite_false] at hv ⊢ <;>
      rw [if_pos hv]

/-- C6: with listLength 0 every keyboard event is ignored: handleKeypress
returns the state unchanged for every key (in particular each of the six
recognized keys) and every prior state. -/
theorem C6_empty_list_noop (key : Key) (s : State) : handleKeypress 0 key s = s := by
  unfold handleKeypress
  rw [if_pos rfl]

/-- C10: handleLeave only sets hoverIndex to -2: for every prior instance
(including hoverIndex already -1 or -2) the delivered leave event leaves
activeIndex, activeElement, listLength and the container untouched, and
triggers no re-resolution. -/
theorem C10_leave_frame (locator : Int → Option Elem) (w : Sys) :
    applyOp locator Op.leave w = { w with state := { w.state with hoverIndex := -2 } } := by
  unfold applyOp runResolve handleLeave
  simp

/-- C8: the element-resolution effect leaves activeElement at its last
resolved value when the locator returns none for the current activeIndex,
and replaces it (changing nothing else) exactly when the locator finds an
element. -/
theorem C8_resolve_retains (locator : Int → Option Elem) (s : State) :
    (locator s.activeIndex = none → resolveEffect locator s = s) ∧
    (∀ e : Elem, locator s.activeIndex = some e →
      resolveEffect locator s = { s with activeElement := some e }) := by
  constructor
  · intro h
    unfold resolveEffect
    rw [h]
  · intro e h
    unfold resolveEffect
    rw [h]

theorem C8_resolve_retains_witness :
    resolveEffect locNone initialState = initialState ∧
    resolveEffect loc1 initialState = { initialState with activeElement := some elem0 } :=
  ⟨(C8_resolve_retains locNone initialState).1 rfl,
   (C8_resolve_retains loc1 initialState).2 elem0 rfl⟩

/-- C9: every issued scroll request targets offset
elementOffsetTop - containerHeight + elementHeight with smooth behavior. -/
theorem C9_scroll_formula (container : Option Container) (s : State) (r : ScrollRequest)
    (h : scrollEffect container s = some r) :
    ∃ (c : Container) (e : Elem), container = some c ∧ s.activeElement = some e ∧
      r.top = e.offsetTop - c.offsetHeight + e.offsetHeight ∧
      r.behavior = ScrollBehavior.smooth := by
  cases container with
  | none =>
    simp only [scrollEffect] at h
    exact Option.noConfusion h
  | some c =>
    cases helem : s.activeElement with
    | none =>
      simp only [scrollEffect, helem] at h
      exact Option.noConfusion h
    | some e =>
      simp only [scrollEffect, helem] at h
      by_cases hg : s.activeIndex < 0 ∨ s.activeIndex = s.hoverIndex ∨ s.hoverIndex = -2
      · rw [if_pos hg] at h
        exact Option.noConfusion h
      · rw [if_neg hg] at h
        injection h with h2
        exact ⟨c, e, rfl, rfl, by rw [← h2], by rw [← h2]⟩

theorem C9_scroll_formula_witness :
    ∃ (c : Container) (e : Elem), (some cont0 : Option Container) = some c ∧
      (State.mk (-1) 0 (some elem0)).activeElement = some e ∧
      (ScrollRequest.mk (-40) ScrollBehavior.smooth).top =
        e.offsetTop - c.offsetHeight + e.offsetHeight ∧
      (ScrollRequest.mk (-40) ScrollBehavior.smooth).behavior = ScrollBehavior.smooth :=
  C9_scroll_formula (some cont0) (State.mk (-1) 0 (some elem0))
    (ScrollRequest.mk (-40) ScrollBehavior.smooth) (by decide)

/-- C7: whenever the listLength argument changes across renders, the
reset effect sets activeIndex back to 0, regardless of the prior
activeIndex. -/
theorem C7_length_reset (locator : Int → Option Elem) (w : Sys) (n : Nat)
    (h : n ≠ w.listLength) :
    (applyOp locator (Op.setLength n) w).state.activeIndex = 0 ∧
    (applyOp locator (Op.setLength n) w).listLength = n := by
  simp only [applyOp]
  rw [if_neg h]
  constructor
  · rw [runResolve_activeIndex]
  · rw [runResolve_listLength]

theorem C7_length_reset_witness :
    (applyOp loc1 (Op.setLength 3) w0).state.activeIndex = 0 ∧
    (applyOp loc1 (Op.setLength 3) w0).listLength = 3 :=
  C7_length_reset loc1 w0 3 (by decide)

/-- C5: handleMove leaves the state unchanged exactly when the event
target has no ancestor-or-self carrying the index attribute, when
Number() of the attribute value is NaN, or when the parsed index equals
the current hoverIndex; otherwise it sets both hoverIndex and
activeIndex to the parsed index (and nothing else). -/
theorem C5_move_noop (attr : Option String) (s : State) :
    (handleMove attr s = s ↔
      attr = none ∨
      (∃ v, attr = some v ∧ jsNumberInt v = none) ∨
      (∃ v i, attr = some v ∧ jsNumberInt v = some i ∧ i = s.hoverIndex)) ∧
    (∀ (v : String) (i : Int), attr = some v → jsNumberInt v = some i →
      i ≠ s.hoverIndex →
      (handleMove attr s).hoverIndex = i ∧ (handleMove attr s).activeIndex = i ∧
      (handleMove attr s).activeElement = s.activeElement) := by
  constructor
  · constructor
    · intro hEq
      cases attr with
      | none => exact Or.inl rfl
      | some v =>
        cases hp : jsNumberInt v with
        | none => exact Or.inr (Or.inl ⟨v, rfl, hp⟩)
        | some i =>
          by_cases hh : s.hoverIndex = i
          · exact Or.inr (Or.inr ⟨v, i, rfl, hp, hh.symm⟩)
          · have hmv : (handleMove (some v) s).hoverIndex = i := by
              simp only [handleMove, hp]
              rw [if_neg hh]
            rw [hEq] at hmv
            exact absurd hmv hh
    · intro hcase
      rcases hcase with h | ⟨v, hv, hp⟩ | ⟨v, i, hv, hp, hi⟩
      · rw [h]
        rfl
      · rw [hv]
        simp only [handleMove, hp]
      · rw [hv]
        simp only [handleMove, hp]
        rw [if_pos hi.symm]
  · intro v i hv hp hne
    rw [hv]
    simp only [handleMove, hp]
    rw [if_neg (fun hh => hne hh.symm)]
    exact ⟨rfl, rfl, rfl⟩

theorem C5_move_noop_witness :
    (handleMove (some "2") initialState).hoverIndex = 2 ∧
    (handleMove (some "2") initialState).activeIndex = 2 ∧
    (handleMove (some "2") initialState).activeElement = initialState.activeElement :=
  (C5_move_noop (some "2") initialState).2 "2" 2 rfl (by decide) (by decide)

/-- C3: for length > 0 the keyboard transition is computed from the base
index (hoverIndex when hoverIndex is nonnegative, activeIndex
otherwise), and after every valid transition of a recognized key
(computed value distinct from the -1 sentinel) activeIndex equals the
computed value and hoverIndex equals -1. -/
theorem C3_keyboard_transition (n : Nat) (key : Key) (s : State)
    (hn : 0 < n) (hrec : Key.isRecognized key = true)
    (hv : computedNext n key s ≠ -1) :
    (handleKeypress n key s).activeIndex = computedNext n key s ∧
    (handleKeypress n key s).hoverIndex = -1 := by
  rw [handleKeypress_eq_computed n key s hn hv]
  exact ⟨rfl, rfl⟩

theorem C3_keyboard_transition_witness :
    (handleKeypress 5 Key.ArrowUp (State.mk 2 0 none)).activeIndex =
      computedNext 5 Key.ArrowUp (State.mk 2 0 none) ∧
    (handleKeypress 5 Key.ArrowUp (State.mk 2 0 none)).hoverIndex = -1 :=
  C3_keyboard_transition 5 Key.ArrowUp (State.mk 2 0 none)
    (by decide) (by decide) (by decide)

/-- C4: for length n > 0 and a base index in range, ArrowUp moves to
(base - 1 + n) mod n and ArrowDown to (base + 1) mod n; in particular Up
from 0 wraps to n - 1 and Down from n - 1 wraps to 0. -/
theorem C4_wraparound (n : Nat) (s : State) (hn : 0 < n)
    (hb0 : 0 ≤ baseIndex s) (hbn : baseIndex s < (n : Int)) :
    (handleKeypress n Key.ArrowUp s).activeIndex = (baseIndex s - 1 + n) % n ∧
    (handleKeypress n Key.ArrowDown s).activeIndex = (baseIndex s + 1) % n ∧
    (baseIndex s = 0 → (handleKeypress n Key.ArrowUp s).activeIndex = (n : Int) - 1) ∧
    (baseIndex s = (n : Int) - 1 → (handleKeypress n Key.ArrowDown s).activeIndex = 0) := by
  have hnz : (0 : Int) < (n : Int) := by exact_mod_cast hn
  have hup : computedNext n Key.ArrowUp s = (baseIndex s - 1 + n) % n := by
    unfold computedNext
    exact jsMod_eq_emod _ _ (by omega) (by omega)
  have hdn : computedNext n Key.ArrowDown s = (baseIndex s + 1) % n := by
    unfold computedNext
    exact jsMod_eq_emod _ _ (by omega) (by omega)
  have hup_ne : computedNext n Key.ArrowUp s ≠ -1 := by
    rw [hup]
    have := Int.emod_nonneg (baseIndex s - 1 + n) (ne_of_gt hnz)
    omega
  have hdn_ne : computedNext n Key.ArrowDown s ≠ -1 := by
    rw [hdn]
    have := Int.emod_nonneg (baseIndex s + 1) (ne_of_gt hnz)
    omega
  rw [handleKeypress_eq_computed n Key.ArrowUp s hn hup_ne,
    handleKeypress_eq_computed n Key.ArrowDown s hn hdn_ne]
  refine ⟨hup, hdn, ?_, ?_⟩
  · intro h0
    show computedNext n Key.ArrowUp s = (n : Int) - 1
    rw [hup, h0]
    have h1 : (0 : Int) - 1 + (n : Int) = (n : Int) - 1 := by ring
    rw [h1]
    exact Int.emod_eq_of_lt (by omega) (by omega)
  · intro h1
    show computedNext n Key.ArrowDown s = 0
    rw [hdn, h1]
    have h2 : (n : Int) - 1 + 1 = (n : Int) := by ring
    rw [h2]
    exact Int.emod_self

theorem C4_wraparound_witness :
    (handleKeypress 5 Key.ArrowUp initialState).activeIndex =
      (baseIndex initialState - 1 + 5) % 5 ∧
    (handleKeypress 5 Key.ArrowDown initialState).activeIndex =
      (baseIndex initialState + 1) % 5 ∧
    (baseIndex initialState = 0 →
      (handleKeypress 5 Key.ArrowUp initialState).activeIndex = (5 : Int) - 1) ∧
    (baseIndex initialState = (5 : Int) - 1 →
      (handleKeypress 5 Key.ArrowDown initialState).activeIndex = 0) :=
  C4_wraparound 5 initialState (by decide) (by decide) (by decide)

/-- C1 counterexample: a scroll request can be issued while activeIndex
did not change. Starting from the mounted instance, the pointer moves
onto row 4 and leaves the container, then the End key is pressed:
activeIndex stays 4 across the key event, yet the effect re-runs
(hoverIndex changed from -2 to -1) and its guard passes, so a scroll
request is issued — refuting the claim that a scroll fires only when
activeIndex changed. -/
theorem C1_counterexample :
    (applyOpScroll loc1 (Op.keypress Key.End)
        (applyOp loc1 Op.leave (applyOp loc1 (Op.move (some "4")) w0))).2 ≠ none ∧
    (applyOpScroll loc1 (Op.keypress Key.End)
        (applyOp loc1 Op.leave (applyOp loc1 (Op.move (some "4")) w0))).1.state.activeIndex =
      (applyOp loc1 Op.leave (applyOp loc1 (Op.move (some "4")) w0)).state.activeIndex := by
  decide

/-- C1 (amended): a scroll request is issued only when, in the settled
state after the event, the container handle exists, activeIndex is
nonnegative, activeIndex differs from hoverIndex, activeElement is
present, hoverIndex is not -2, and some dependency of the effect
(activeIndex, hoverIndex or activeElement) changed — activeIndex itself
need not have changed; and after every leave event (hoverIndex -2) no
scroll request is issued. -/
theorem C1_scroll_conditions :
    (∀ (locator : Int → Option Elem) (op : Op) (w : Sys) (r : ScrollRequest),
      (applyOpScroll locator op w).2 = some r →
      (applyOp locator op w).container ≠ none ∧
      0 ≤ (applyOp locator op w).state.activeIndex ∧
      (applyOp locator op w).state.activeIndex ≠ (applyOp locator op w).state.hoverIndex ∧
      (applyOp locator op w).state.activeElement ≠ none ∧
      (applyOp locator op w).state.hoverIndex ≠ -2 ∧
      scrollDeps (applyOp locator op w).state ≠ scrollDeps w.state) ∧
    (∀ (locator : Int → Option Elem) (w : Sys),
      (applyOpScroll locator Op.leave w).2 = none) := by
  constructor
  · intro locator op w r h
    simp only [applyOpScroll] at h
    by_cases hdep : scrollDeps (applyOp locator op w).state = scrollDeps w.state
    · rw [if_pos hdep] at h
      exact Option.noConfusion h
    · rw [if_neg hdep] at h
      cases hcont : (applyOp locator op w).container with
      | none =>
        rw [hcont] at h
        simp only [scrollEffect] at h
        exact Option.noConfusion h
      | some c =>
        cases helem : (applyOp locator op w).state.activeElement with
        | none =>
          rw [hcont] at h
          simp only [scrollEffect, helem] at h
          exact Option.noConfusion h
        | some e =>
          rw [hcont] at h
          simp only [scrollEffect, helem] at h
          by_cases hg : (applyOp locator op w).state.activeIndex < 0 ∨
              (applyOp locator op w).state.activeIndex = (applyOp locator op w).state.hoverIndex ∨
              (applyOp locator op w).state.hoverIndex = -2
          · rw [if_pos hg] at h
            exact Option.noConfusion h
          · push_neg at hg
            obtain ⟨g1, g2, g3⟩ := hg
            exact ⟨by simp, by omega, g2, by simp, g3, hdep⟩
  · intro locator w
    simp only [applyOpScroll]
    have hhov : (applyOp locator Op.leave w).state.hoverIndex = -2 := by
      simp only [applyOp]
      rw [runResolve_hoverIndex]
      rfl
    by_cases hdep : scrollDeps (applyOp locator Op.leave w).state = scrollDeps w.state
    · rw [if_pos hdep]
    · rw [if_neg hdep]
      exact scrollEffect_hover_left _ _ hhov

theorem C1_scroll_conditions_witness :
    (applyOp loc1 (Op.keypress Key.End) wLeft).container ≠ none ∧
    0 ≤ (applyOp loc1 (Op.keypress Key.End) wLeft).state.activeIndex ∧
    (applyOp loc1 (Op.keypress Key.End) wLeft).state.activeIndex ≠
      (applyOp loc1 (Op.keypress Key.End) wLeft).state.hoverIndex ∧
    (applyOp loc1 (Op.keypress Key.End) wLeft).state.activeElement ≠ none ∧
    (applyOp loc1 (Op.keypress Key.End) wLeft).state.hoverIndex ≠ -2 ∧
    scrollDeps (applyOp loc1 (Op.keypress Key.End) wLeft).state ≠ scrollDeps wLeft.state :=
  C1_scroll_conditions.1 loc1 (Op.keypress Key.End) wLeft
    (ScrollRequest.mk (-40) ScrollBehavior.smooth) (by decide)

/-- C2 counterexample: a pointer move over an item whose index attribute
parses to 100, on a list of length 5, is accepted (100 differs from
hoverIndex) and sets activeIndex to 100, so the invariant
0 ≤ activeIndex < length fails after an accepted handleMove. -/
theorem C2_counterexample :
    0 < (applyOp loc1 (Op.move (some "100")) w0).listLength ∧
    ¬ (0 ≤ (applyOp loc1 (Op.move (some "100")) w0).state.activeIndex ∧
       (applyOp loc1 (Op.move (some "100")) w0).state.activeIndex <
         ((applyOp loc1 (Op.move (some "100")) w0).listLength : Int)) := by
  decide

/-- C2 (amended): with length n > 0, the invariant 0 ≤ activeIndex < n is
preserved by every keyboard event (for any hoverIndex, in particular one
set from an out-of-range attribute value at or above n), by every
pointer move whose parsed attribute value lies within [0, n) — but not
by moves whose accepted parsed value lies outside that range, which set
activeIndex out of range — and by every leave event. -/
theorem C2_invariant_preserved :
    (∀ (n : Nat) (key : Key) (s : State), 0 < n →
      0 ≤ s.activeIndex → s.activeIndex < (n : Int) →
      0 ≤ (handleKeypress n key s).activeIndex ∧
        (handleKeypress n key s).activeIndex < (n : Int)) ∧
    (∀ (n : Nat) (attr : Option String) (s : State), 0 < n →
      0 ≤ s.activeIndex → s.activeIndex < (n : Int) →
      (∀ (v : String) (i : Int), attr = some v → jsNumberInt v = some i →
        0 ≤ i ∧ i < (n : Int)) →
      0 ≤ (handleMove attr s).activeIndex ∧
        (handleMove attr s).activeIndex < (n : Int)) ∧
    (∀ s : State, (handleLeave s).activeIndex = s.activeIndex) := by
  refine ⟨?_, ?_, fun s => rfl⟩
  · intro n key s hn h0 h1
    have hnz : (0 : Int) < (n : Int) := by exact_mod_cast hn
    have hb : 0 ≤ baseIndex s := by
      unfold baseIndex
      split
      · assumption
      · exact h0
    by_cases hv : computedNext n key s = -1
    · rw [handleKeypress_noTransition n key s hv]
      exact ⟨h0, h1⟩
    · rw [handleKeypress_eq_computed n key s hn hv]
      show 0 ≤ computedNext n key s ∧ computedNext n key s < (n : Int)
      cases key with
      | ArrowUp => exact jsMod_bounds _ _ (by omega) hnz
      | ArrowDown => exact jsMod_bounds _ _ (by omega) hnz
      | PageUp => exact ⟨le_refl 0, hnz⟩
      | Home => exact ⟨le_refl 0, hnz⟩
      | PageDown => constructor <;> simp only [computedNext] <;> omega
      | End => constructor <;> simp only [computedNext] <;> omega
      | other k => exact absurd rfl hv
  · intro n attr s hn h0 h1 hrange
    cases attr with
    | none => exact ⟨h0, h1⟩
    | some v =>
      cases hp : jsNumberInt v with
      | none =>
        simp only [handleMove, hp]
        exact ⟨h0, h1⟩
      | some i =>
        simp only [handleMove, hp]
        by_cases hh : s.hoverIndex = i
        · rw [if_pos hh]
          exact ⟨h0, h1⟩
        · rw [if_neg hh]
          exact hrange v i rfl hp

theorem C2_invariant_preserved_witness :
    (0 ≤ (handleKeypress 5 Key.ArrowDown initialState).activeIndex ∧
      (handleKeypress 5 Key.ArrowDown initialState).activeIndex < (5 : Int)) ∧
    (0 ≤ (handleMove (some "2") initialState).activeIndex ∧
      (handleMove (some "2") initialState).activeIndex < (5 : Int)) := by
  constructor
  · exact C2_invariant_preserved.1 5 Key.ArrowDown initialState
      (by decide) (by decide) (by decide)
  · refine C2_invariant_preserved.2.1 5 (some "2") initialState
      (by decide) (by decide) (by decide) ?_
    intro v i hv hp
    injection hv with hv2
    subst hv2
    have h2 : jsNumberInt "2" = some 2 := by decide
    rw [h2] at hp
    injection hp with hp2
    subst hp2
    decide

end UseKbdList
